import Mathlib

/-!
Verification of the PodPace pipeline against its specification.

The definitions below are a shallow embedding of the TypeScript source:
- the quota ledger from src/backend/utils/quotaUtils.ts,
- the pipeline gate routes from src/backend/index.ts,
- the adjustment worker from src/backend/interfaces.ts (worker half),
- the analysis worker WPM computation from src/unnamed/part_016.

External effects (redis, ffmpeg, rubberband, the transcription API) are
modelled by explicit state threading and by boolean/Except oracles that say
whether each external invocation succeeds; a thrown JS exception is an
error value of the embedding.
-/

namespace PodPace

/-! ## Quota ledger (src/backend/utils/quotaUtils.ts)

One redis counter key for a fixed (user, kind, UTC day). `none` models an
absent key (never incremented today); redis INCR treats an absent key as 0.
-/

/-- Daily limit for the analysis kind (quotaUtils.ts line 33). -/
def analysisLimit : Nat := 3

/-- Daily limit for the adjustment kind (quotaUtils.ts line 64). -/
def adjustmentLimit : Nat := 1

/-- getQuotaCount: read the counter, 0 if the key is unset. -/
def getQuotaCount : Option Nat → Nat
  | none => 0
  | some c => c

/-- redis INCR: increment the key (absent counts as 0) and return the
post-increment value together with the new store state. -/
def redisIncr : Option Nat → Nat × Option Nat
  | none => (1, some 1)
  | some c => (c + 1, some (c + 1))

/-- checkAndIncrementAnalysisQuota / checkAndIncrementAdjustmentQuota,
abstracted over the limit: INCR, then allowed iff the post-increment value
is at most the limit. Returns (allowed, new store state). -/
def checkAndIncrementQuota (limit : Nat) (s : Option Nat) : Bool × Option Nat :=
  let r := redisIncr s
  (decide (r.1 ≤ limit), r.2)

/-- Run `n` sequential checkAndIncrement calls for the same key, collecting
the returned booleans in order. -/
def iterateCalls (limit : Nat) : Option Nat → Nat → List Bool
  | _, 0 => []
  | s, Nat.succ n =>
    let r := checkAndIncrementQuota limit s
    r.1 :: iterateCalls limit r.2 n

/-- C1: for each quota kind with limit L (analysis 3, adjustment 1), from an
absent counter, L sequential checkAndConsume calls return true exactly L
times and the (L+1)-th returns false; and every call returns precisely
whether the pre-increment value was under the limit. -/
theorem quota_sequential_calls :
    iterateCalls analysisLimit none 4 = [true, true, true, false] ∧
    iterateCalls adjustmentLimit none 2 = [true, false] ∧
    ∀ s : Option Nat,
      (checkAndIncrementQuota analysisLimit s).1
          = decide (getQuotaCount s < analysisLimit) ∧
      (checkAndIncrementQuota adjustmentLimit s).1
          = decide (getQuotaCount s < adjustmentLimit) := by
  refine ⟨by decide, by decide, ?_⟩
  intro s
  cases s <;>
    simp [checkAndIncrementQuota, redisIncr, getQuotaCount, Nat.lt_iff_add_one_le]

/-- C10: every checkAndConsume call that reaches the store increments the
persisted counter by exactly one, whether it returns true or false; so after
a denied adjustment call the stored count is 2, strictly above the limit 1,
and a subsequent peek (getQuotaCount) reports that over-limit usage. -/
theorem quota_increments_even_when_denied :
    (∀ limit : Nat, ∀ s : Option Nat,
      getQuotaCount (checkAndIncrementQuota limit s).2 = getQuotaCount s + 1) ∧
    (checkAndIncrementQuota adjustmentLimit
        (checkAndIncrementQuota adjustmentLimit none).2).1 = false ∧
    getQuotaCount (checkAndIncrementQuota adjustmentLimit
        (checkAndIncrementQuota adjustmentLimit none).2).2 = 2 ∧
    adjustmentLimit < 2 := by
  refine ⟨?_, by decide, by decide, by decide⟩
  intro limit s
  cases s <;> simp [checkAndIncrementQuota, redisIncr, getQuotaCount]

/-! ## Pipeline gate (src/backend/index.ts)

The two metered routes, modelled as pure functions from the request facts
to the list of externally visible actions (quota calls, ledger status
writes, queue submissions), the HTTP outcome, and the new quota store
state. Booleans stand for request-validation facts and for whether an
external call succeeds; `JobRef.fresh` is the uuid generated inside
handleUpload, `JobRef.existing` the caller-supplied job id.
Authenticated callers have role FREE or PAID (getUserRole in
middleware/role.ts returns only these); unauthenticated requests are
rejected before either handler runs.
-/

/-- Job lifecycle statuses written by the backend (common/src/types.ts). -/
inductive JobStatus
  | PENDING
  | PROCESSING_UPLOAD_CLOUD
  | PROCESSING_CLOUD_ANALYSIS
  | PROCESSING_WPM_CALCULATION
  | READY_FOR_INPUT
  | QUEUED_FOR_ADJUSTMENT
  | PROCESSING_ADJUSTMENT
  | PROCESSING_RECONSTRUCTION
  | COMPLETE
  | FAILED
  deriving DecidableEq, Repr

/-- Roles of authenticated callers. -/
inductive Role
  | FREE
  | PAID
  deriving DecidableEq, Repr

/-- The two metered quota kinds, also naming the two queues. -/
inductive QuotaKind
  | analysis
  | adjustment
  deriving DecidableEq, Repr

/-- Whether an action targets the freshly created job of this request or a
pre-existing job named by the caller. -/
inductive JobRef
  | fresh
  | existing
  deriving DecidableEq, Repr

/-- Externally visible actions of a gate route, in execution order. -/
inductive GateEvent
  | quotaCall (kind : QuotaKind) (allowed : Bool)
  | statusWrite (jobRef : JobRef) (st : JobStatus)
  | enqueue (kind : QuotaKind) (jobRef : JobRef)
  deriving DecidableEq, Repr

/-- HTTP-level outcome classes of the two routes. -/
inductive GateOutcome
  | accepted
  | quotaDenied
  | badRequest
  | notFound
  | conflict
  | serverError
  deriving DecidableEq, Repr

def GateEvent.isQuotaCall : GateEvent → Bool
  | .quotaCall _ _ => true
  | _ => false

def GateEvent.isEnqueue : GateEvent → Bool
  | .enqueue _ _ => true
  | _ => false

/-- True iff some quota call appears strictly after some queue submission
in the trace; the gate contract requires this to be false. -/
def quotaAfterEnqueue : List GateEvent → Bool
  | [] => false
  | e :: rest =>
    (e.isEnqueue && rest.any GateEvent.isQuotaCall) || quotaAfterEnqueue rest

/-- handleUpload after the quota gate (index.ts lines 169 to 237):
content-type check, form/file validation and streaming, then the PENDING
status write and the analysis-queue submission; a failing queue add is
caught and reported as a 500 after the status write. -/
def handleUploadRest (contentTypeOk fileOk enqueueOk : Bool) :
    List GateEvent × GateOutcome :=
  if ¬ contentTypeOk then ([], .badRequest)
  else if ¬ fileOk then ([], .badRequest)
  else if enqueueOk then
    ([.statusWrite .fresh .PENDING, .enqueue .analysis .fresh], .accepted)
  else
    ([.statusWrite .fresh .PENDING], .serverError)

/-- handleUpload (index.ts lines 156 to 238): a FREE caller is metered
first and denied requests return immediately; a PAID caller skips the
quota ledger entirely. -/
def handleUpload (role : Role) (qs : Option Nat) (contentTypeOk fileOk enqueueOk : Bool) :
    List GateEvent × GateOutcome × Option Nat :=
  match role with
  | .PAID =>
    let r := handleUploadRest contentTypeOk fileOk enqueueOk
    (r.1, r.2, qs)
  | .FREE =>
    let q := checkAndIncrementQuota analysisLimit qs
    if q.1 then
      let r := handleUploadRest contentTypeOk fileOk enqueueOk
      (.quotaCall .analysis true :: r.1, r.2, q.2)
    else
      ([.quotaCall .analysis false], .quotaDenied, q.2)

/-- handleAdjust (index.ts lines 98 to 151): job lookup, the status guard
admitting exactly READY_FOR_INPUT and FAILED, body validation, then the
QUEUED_FOR_ADJUSTMENT status write (targets stored, error cleared) and the
adjustment-queue submission; a failing queue add is caught as a 500. -/
def handleAdjustCore (jobStatus : Option JobStatus)
    (targetsValid enqueueOk : Bool) : List GateEvent × GateOutcome :=
  match jobStatus with
  | none => ([], .notFound)
  | some st =>
    if st ≠ .READY_FOR_INPUT ∧ st ≠ .FAILED then ([], .conflict)
    else if ¬ targetsValid then ([], .badRequest)
    else if enqueueOk then
      ([.statusWrite .existing .QUEUED_FOR_ADJUSTMENT,
        .enqueue .adjustment .existing], .accepted)
    else
      ([.statusWrite .existing .QUEUED_FOR_ADJUSTMENT], .serverError)

/-- The adjust route (index.ts lines 549 to 578): a FREE caller is metered
against the adjustment quota before handleAdjust runs; PAID skips it. -/
def adjustRoute (role : Role) (qs : Option Nat) (jobStatus : Option JobStatus)
    (targetsValid enqueueOk : Bool) : List GateEvent × GateOutcome × Option Nat :=
  match role with
  | .PAID =>
    let r := handleAdjustCore jobStatus targetsValid enqueueOk
    (r.1, r.2, qs)
  | .FREE =>
    let q := checkAndIncrementQuota adjustmentLimit qs
    if q.1 then
      let r := handleAdjustCore jobStatus targetsValid enqueueOk
      (.quotaCall .adjustment true :: r.1, r.2, q.2)
    else
      ([.quotaCall .adjustment false], .quotaDenied, q.2)

/-- Facts about the body of handleUpload after the gate: it performs no
quota call, its only queue submission is the analysis queue for the fresh
job, its status writes only create the fresh PENDING record, and it never
reports a quota denial. -/
lemma uploadRest_facts (a b c : Bool) :
    ((handleUploadRest a b c).1.all fun e => !e.isQuotaCall) = true ∧
    ((handleUploadRest a b c).1.all fun e =>
        !e.isEnqueue || decide (e = .enqueue .analysis .fresh)) = true ∧
    quotaAfterEnqueue (handleUploadRest a b c).1 = false ∧
    (handleUploadRest a b c).2 ≠ .quotaDenied := by
  cases a <;> cases b <;> cases c <;> decide

/-- Facts about handleAdjust proper: no quota call, the only queue
submission is the adjustment queue for the existing job ‐ and only when
the stored status is READY_FOR_INPUT or FAILED ‐ the only status write is
QUEUED_FOR_ADJUSTMENT, and it never reports a quota denial. -/
lemma adjustCore_facts (js : Option JobStatus) (tv ek : Bool) :
    ((handleAdjustCore js tv ek).1.all fun e => !e.isQuotaCall) = true ∧
    ((handleAdjustCore js tv ek).1.all fun e =>
        !e.isEnqueue || decide (e = .enqueue .adjustment .existing)) = true ∧
    ((handleAdjustCore js tv ek).1.all fun e =>
        match e with
        | .statusWrite _ s => decide (s = .QUEUED_FOR_ADJUSTMENT)
        | _ => true) = true ∧
    quotaAfterEnqueue (handleAdjustCore js tv ek).1 = false ∧
    (handleAdjustCore js tv ek).2 ≠ .quotaDenied ∧
    (((handleAdjustCore js tv ek).1.any GateEvent.isEnqueue) = true →
      js = some .READY_FOR_INPUT ∨ js = some .FAILED) := by
  rcases js with _ | st
  · cases tv <;> cases ek <;> decide
  · cases st <;> cases tv <;> cases ek <;> decide

/-- A quota-call event at the head does not put a quota call after an
enqueue. -/
lemma quotaAfterEnqueue_cons_quota (k : QuotaKind) (b : Bool) (t : List GateEvent) :
    quotaAfterEnqueue (GateEvent.quotaCall k b :: t) = quotaAfterEnqueue t := by
  simp [quotaAfterEnqueue, GateEvent.isEnqueue]

/-- C2: on both gated routes, a PAID (unlimited) caller is admitted with no
quota call at all and is never quota-denied; a request is enqueued only
after a successful quota decision (for FREE, an allowed quota call is in
the trace whenever an enqueue is); the quota decision always precedes the
queue submission in the trace; and a quota-denied request performs no
queue submission. -/
theorem gate_quota_decision_precedes_enqueue (role : Role) (qs : Option Nat)
    (ct fk ek : Bool) (js : Option JobStatus) (tv ek2 : Bool) :
    (role = .PAID →
      ((handleUpload role qs ct fk ek).1.all fun e => !e.isQuotaCall) = true ∧
      ((adjustRoute role qs js tv ek2).1.all fun e => !e.isQuotaCall) = true ∧
      (handleUpload role qs ct fk ek).2.1 ≠ .quotaDenied ∧
      (adjustRoute role qs js tv ek2).2.1 ≠ .quotaDenied) ∧
    (((handleUpload role qs ct fk ek).1.any GateEvent.isEnqueue) = true →
      role = .PAID ∨
        GateEvent.quotaCall .analysis true ∈ (handleUpload role qs ct fk ek).1) ∧
    (((adjustRoute role qs js tv ek2).1.any GateEvent.isEnqueue) = true →
      role = .PAID ∨
        GateEvent.quotaCall .adjustment true ∈ (adjustRoute role qs js tv ek2).1) ∧
    quotaAfterEnqueue (handleUpload role qs ct fk ek).1 = false ∧
    quotaAfterEnqueue (adjustRoute role qs js tv ek2).1 = false ∧
    ((handleUpload role qs ct fk ek).2.1 = .quotaDenied →
      ((handleUpload role qs ct fk ek).1.all fun e => !e.isEnqueue) = true) ∧
    ((adjustRoute role qs js tv ek2).2.1 = .quotaDenied →
      ((adjustRoute role qs js tv ek2).1.all fun e => !e.isEnqueue) = true) := by
  have hu := uploadRest_facts ct fk ek
  have ha := adjustCore_facts js tv ek2
  cases role with
  | PAID =>
    exact ⟨fun _ => ⟨hu.1, ha.1, hu.2.2.2, ha.2.2.2.2.1⟩,
           fun _ => Or.inl rfl, fun _ => Or.inl rfl,
           hu.2.2.1, ha.2.2.2.1,
           fun h => absurd h hu.2.2.2, fun h => absurd h ha.2.2.2.2.1⟩
  | FREE =>
    cases hq1 : (checkAndIncrementQuota analysisLimit qs).1 <;>
      cases hq2 : (checkAndIncrementQuota adjustmentLimit qs).1
    all_goals {
      first
      | (have hu2 : handleUpload Role.FREE qs ct fk ek
            = (.quotaCall .analysis true :: (handleUploadRest ct fk ek).1,
               (handleUploadRest ct fk ek).2,
               (checkAndIncrementQuota analysisLimit qs).2) := by
           simp [handleUpload, hq1])
      | (have hu2 : handleUpload Role.FREE qs ct fk ek
            = ([.quotaCall .analysis false], .quotaDenied,
               (checkAndIncrementQuota analysisLimit qs).2) := by
           simp [handleUpload, hq1])
      first
      | (have ha2 : adjustRoute Role.FREE qs js tv ek2
            = (.quotaCall .adjustment true :: (handleAdjustCore js tv ek2).1,
               (handleAdjustCore js tv ek2).2,
               (checkAndIncrementQuota adjustmentLimit qs).2) := by
           simp [adjustRoute, hq2])
      | (have ha2 : adjustRoute Role.FREE qs js tv ek2
            = ([.quotaCall .adjustment false], .quotaDenied,
               (checkAndIncrementQuota adjustmentLimit qs).2) := by
           simp [adjustRoute, hq2])
      rw [hu2, ha2]
      dsimp only
      refine ⟨fun h => Role.noConfusion h, ?_, ?_, ?_, ?_, ?_, ?_⟩
      all_goals first
        | decide
        | (intro _a; exact Or.inr (List.mem_cons_self _ _))
        | (rw [quotaAfterEnqueue_cons_quota]; first
            | exact hu.2.2.1
            | exact ha.2.2.2.1)
        | (intro h; exact absurd h hu.2.2.2)
        | (intro h; exact absurd h ha.2.2.2.2.1)
        | (intro h; exact absurd h (by decide))
    }

/-- Witness for C2 at concrete inputs: a PAID upload with a valid request
performs no quota call, and a FREE adjust request never places a quota
call after a queue submission. -/
theorem gate_quota_decision_precedes_enqueue_witness :
    ((handleUpload Role.PAID none true true true).1.all fun e => !e.isQuotaCall) = true ∧
    quotaAfterEnqueue (adjustRoute Role.FREE none (some .FAILED) true true).1 = false :=
  ⟨((gate_quota_decision_precedes_enqueue Role.PAID none true true true
      (some .FAILED) true true).1 rfl).1,
   (gate_quota_decision_precedes_enqueue Role.FREE none true true true
      (some .FAILED) true true).2.2.2.2.1⟩

/-- C9: the analysis queue only ever receives the freshly created job of an
upload request, so a FAILED job can never be resubmitted to analysis; the
only route acting on an existing job enqueues the adjustment stage, writes
only QUEUED_FOR_ADJUSTMENT, and admits exactly the stored statuses
READY_FOR_INPUT and FAILED; and resubmitting valid targets against a FAILED
job re-attempts adjustment (status write QUEUED_FOR_ADJUSTMENT plus an
adjustment-queue submission). -/
theorem failed_retry_is_adjustment_only (role : Role) (qs : Option Nat)
    (ct fk ek : Bool) (js : Option JobStatus) (tv ek2 : Bool) :
    ((handleUpload role qs ct fk ek).1.all fun e =>
        !e.isEnqueue || decide (e = .enqueue .analysis .fresh)) = true ∧
    ((adjustRoute role qs js tv ek2).1.all fun e =>
        !e.isEnqueue || decide (e = .enqueue .adjustment .existing)) = true ∧
    ((adjustRoute role qs js tv ek2).1.all fun e =>
        match e with
        | .statusWrite _ s => decide (s = .QUEUED_FOR_ADJUSTMENT)
        | _ => true) = true ∧
    (((adjustRoute role qs js tv ek2).1.any GateEvent.isEnqueue) = true →
      js = some .READY_FOR_INPUT ∨ js = some .FAILED) ∧
    adjustRoute .PAID qs (some .FAILED) true true
      = ([.statusWrite .existing .QUEUED_FOR_ADJUSTMENT,
          .enqueue .adjustment .existing], .accepted, qs) := by
  have hu := uploadRest_facts ct fk ek
  have ha := adjustCore_facts js tv ek2
  have hlast : adjustRoute .PAID qs (some .FAILED) true true
      = ([.statusWrite .existing .QUEUED_FOR_ADJUSTMENT,
          .enqueue .adjustment .existing], .accepted, qs) := rfl
  cases role with
  | PAID => exact ⟨hu.2.1, ha.2.1, ha.2.2.1, ha.2.2.2.2.2, hlast⟩
  | FREE =>
    cases hq1 : (checkAndIncrementQuota analysisLimit qs).1 <;>
      cases hq2 : (checkAndIncrementQuota adjustmentLimit qs).1
    all_goals {
      first
      | (have hu2 : handleUpload Role.FREE qs ct fk ek
            = (.quotaCall .analysis true :: (handleUploadRest ct fk ek).1,
               (handleUploadRest ct fk ek).2,
               (checkAndIncrementQuota analysisLimit qs).2) := by
           simp [handleUpload, hq1])
      | (have hu2 : handleUpload Role.FREE qs ct fk ek
            = ([.quotaCall .analysis false], .quotaDenied,
               (checkAndIncrementQuota analysisLimit qs).2) := by
           simp [handleUpload, hq1])
      first
      | (have ha2 : adjustRoute Role.FREE qs js tv ek2
            = (.quotaCall .adjustment true :: (handleAdjustCore js tv ek2).1,
               (handleAdjustCore js tv ek2).2,
               (checkAndIncrementQuota adjustmentLimit qs).2) := by
           simp [adjustRoute, hq2])
      | (have ha2 : adjustRoute Role.FREE qs js tv ek2
            = ([.quotaCall .adjustment false], .quotaDenied,
               (checkAndIncrementQuota adjustmentLimit qs).2) := by
           simp [adjustRoute, hq2])
      rw [hu2, ha2]
      dsimp only
      refine ⟨?_, ?_, ?_, ?_, hlast⟩
      all_goals first
        | decide
        | (simp only [List.all_cons, Bool.and_eq_true]
           first
           | exact ⟨by decide, hu.2.1⟩
           | exact ⟨by decide, ha.2.1⟩
           | exact ⟨by decide, ha.2.2.1⟩)
        | (intro h
           refine ha.2.2.2.2.2 ?_
           simpa [GateEvent.isEnqueue] using h)
        | (intro h; exact absurd h (by decide))
    }

/-- Witness for C9: an adjustment retry against a FAILED job at concrete
inputs is admitted and enqueued, and the enqueue implies the stored status
was READY_FOR_INPUT or FAILED. -/
theorem failed_retry_is_adjustment_only_witness :
    (some JobStatus.FAILED = some JobStatus.READY_FOR_INPUT ∨
      some JobStatus.FAILED = some JobStatus.FAILED) ∧
    adjustRoute Role.PAID none (some .FAILED) true true
      = ([.statusWrite .existing .QUEUED_FOR_ADJUSTMENT,
          .enqueue .adjustment .existing], .accepted, none) :=
  ⟨(failed_retry_is_adjustment_only Role.PAID none true true true
      (some .FAILED) true true).2.2.2.1 (by decide),
   (failed_retry_is_adjustment_only Role.PAID none true true true
      (some .FAILED) true true).2.2.2.2⟩

/-! ## Adjustment worker (src/backend/interfaces.ts, worker half)

processAudioAdjustment and processAdjustJob as pure functions. JS numbers
are modelled as exact rationals. External invocations (fs.copyFile,
fs.mkdir, the ffmpeg extraction, rubberband, the ffmpeg concatenation) are
modelled by success oracles in `Externals`; a false oracle is the command
throwing. File contents are symbolic `AudioFile` values: `sourceCopy` is a
verbatim byte copy of the source file, `extracted i` the audio of segment
index i cut from the source, `stretched i f` that audio after the
tempo-only transform with factor f, `concatenated parts` the
re-encoded concatenation of the parts in list order.
-/

/-- Segment (common/src/types.ts): speaker label or null, bounds in ms. -/
structure SegmentT where
  speaker : Option String
  startMs : ℚ
  endMs : ℚ

/-- TargetWPM (common/src/types.ts). -/
structure TargetWPM where
  id : String
  target_wpm : ℚ

/-- SpeakerWPM (common/src/types.ts), with the detail fields produced by
the analysis worker. -/
structure SpeakerWPM where
  id : String
  avg_wpm : ℚ
  total_words : Nat
  total_duration_s : ℚ

/-- Analysis data persisted by the analysis worker and reloaded by
getJobAnalysisData. -/
structure AnalysisData where
  speakers : List SpeakerWPM
  segments : List SegmentT

/-- JS Map get over the entry list the Map was built from: the last
binding of a key wins. -/
def mapGet (entries : List (String × ℚ)) (k : String) : Option ℚ :=
  (entries.reverse.find? fun e => e.1 == k).map (fun e => e.2)

/-- JS Map has. -/
def mapHas (entries : List (String × ℚ)) (k : String) : Bool :=
  entries.any fun e => e.1 == k

/-- The optimization check of processAudioAdjustment (interfaces.ts lines
81 to 96): processing is needed iff some supplied target has no original
WPM entry or differs from it by more than 1.0 WPM; the length guard plus
the early-exit loop is the list `any`; an empty target list never needs
processing. -/
def needsProcessing (originals : List (String × ℚ)) (targets : List TargetWPM) : Bool :=
  targets.any fun t =>
    match mapGet originals t.id with
    | none => true
    | some ow => decide (|t.target_wpm - ow| > 1)

/-- The per-segment stretch factor (interfaces.ts lines 150 to 164):
1.0 unless the segment has a speaker, that speaker has a target, and both
the original and the target WPM are truthy and positive, in which case it
is target divided by original, unclamped. -/
def stretchFactor (originals targetEntries : List (String × ℚ)) (seg : SegmentT) : ℚ :=
  match seg.speaker with
  | none => 1
  | some sp =>
    if mapHas targetEntries ("Speaker_" ++ sp) then
      match mapGet originals ("Speaker_" ++ sp), mapGet targetEntries ("Speaker_" ++ sp) with
      | some ow, some tw => if 0 < ow ∧ 0 < tw then tw / ow else 1
      | _, _ => 1
    else 1

/-- Success oracles for the external commands of one adjustment run,
per segment index where relevant. -/
structure Externals where
  copyOk : Bool
  mkdirOk : Bool
  extractOk : Nat → Bool
  stretchOk : Nat → Bool
  concatOk : Bool

/-- Symbolic audio file contents. -/
inductive AudioFile
  | sourceCopy
  | extracted (i : Nat)
  | stretched (i : Nat) (factor : ℚ)
  | concatenated (parts : List AudioFile)

/-- External operations attempted by one adjustment run, in order. -/
inductive WStep
  | statusWrite (st : JobStatus)
  | copySource
  | mkdirTemp
  | extract (i : Nat)
  | stretch (i : Nat) (factor : ℚ)
  | concat
  | removeTempDir
  deriving DecidableEq

/-- The per-segment loop (interfaces.ts lines 127 to 195): in index order,
skip non-positive durations, extract the segment (abort the run if ffmpeg
fails), then invoke rubberband exactly when the factor deviates from 1 by
more than 0.01 (abort if it fails), else reuse the extracted file; collect
the attempted operations and, on success, the ordered result files. -/
def processSegments (fx : Externals) (originals targetEntries : List (String × ℚ)) :
    Nat → List SegmentT → List WStep × Except String (List AudioFile)
  | _, [] => ([], .ok [])
  | i, seg :: rest =>
    if seg.endMs - seg.startMs ≤ 0 then
      processSegments fx originals targetEntries (i + 1) rest
    else if fx.extractOk i then
      let f := stretchFactor originals targetEntries seg
      if |f - 1| > 1 / 100 then
        if fx.stretchOk i then
          let r := processSegments fx originals targetEntries (i + 1) rest
          (.extract i :: .stretch i f :: r.1,
           r.2.map fun files => .stretched i f :: files)
        else
          ([.extract i, .stretch i f], .error "rubberband command failed")
      else
        let r := processSegments fx originals targetEntries (i + 1) rest
        (.extract i :: r.1, r.2.map fun files => .extracted i :: files)
    else
      ([.extract i], .error "ffmpeg segment extraction failed")

/-- Result of one processAudioAdjustment run: attempted operations, the
returned output-file content or the raised error, and whether the
job-specific temp directory was ever created and whether it was removed. -/
structure AdjustRun where
  steps : List WStep
  result : Except String AudioFile
  tempDirCreated : Bool
  tempDirRemoved : Bool

/-- processAudioAdjustment (interfaces.ts lines 63 to 220): status write,
analysis-data load (throw if missing), the optimization check and verbatim
copy on the no-op path, else mkdir of the temp directory, the segment
loop, the reconstruction status write and the single re-encoding
concatenation, with the temp directory removed in the finally block of the
full path regardless of outcome. -/
def processAudioAdjustment (fx : Externals) (targets : List TargetWPM)
    (analysis : Option AnalysisData) : AdjustRun :=
  let s0 : List WStep := [.statusWrite .PROCESSING_ADJUSTMENT]
  match analysis with
  | none =>
    ⟨s0, .error "Failed to retrieve necessary analysis data from Redis.", false, false⟩
  | some ad =>
    let originals := ad.speakers.map fun s => (s.id, s.avg_wpm)
    let targetEntries := targets.map fun t => (t.id, t.target_wpm)
    if ¬ needsProcessing originals targets then
      if fx.copyOk then
        ⟨s0 ++ [.copySource], .ok .sourceCopy, false, false⟩
      else
        ⟨s0 ++ [.copySource],
         .error "Failed to copy original file for unchanged job", false, false⟩
    else if ¬ fx.mkdirOk then
      ⟨s0, .error "failed to create temp directory", false, false⟩
    else
      let r := processSegments fx originals targetEntries 0 ad.segments
      match r.2 with
      | .error e =>
        ⟨s0 ++ [.mkdirTemp] ++ r.1 ++ [.removeTempDir], .error e, true, true⟩
      | .ok files =>
        if fx.concatOk then
          ⟨s0 ++ [.mkdirTemp] ++ r.1
              ++ [.statusWrite .PROCESSING_RECONSTRUCTION, .concat, .removeTempDir],
           .ok (.concatenated files), true, true⟩
        else
          ⟨s0 ++ [.mkdirTemp] ++ r.1
              ++ [.statusWrite .PROCESSING_RECONSTRUCTION, .concat, .removeTempDir],
           .error "ffmpeg concatenation failed", true, true⟩

/-- The one terminal ledger write of a worker handler run. -/
inductive FinalWrite
  | complete (output : AudioFile)
  | failed (msg : String)

/-- processAdjustJob (interfaces.ts lines 223 to 240): run the adjustment,
then write COMPLETE with the output path on success, or FAILED with the
error message on any exception; the handler itself always returns. -/
def processAdjustJob (fx : Externals) (targets : List TargetWPM)
    (analysis : Option AnalysisData) : AdjustRun × FinalWrite :=
  let run := processAudioAdjustment fx targets analysis
  match run.result with
  | .ok out => (run, .complete out)
  | .error e => (run, .failed e)

/-! ## Analysis worker (src/unnamed/part_016)

calculateWPM and processAnalyzeJob. The AssemblyAI collaborators (upload,
submission, the bounded poll loop) are modelled by Except oracles: an
error value is the thrown exception, including the poll timeout; a
transcript with absent utterances is modelled by the empty utterance list
(calculateWPM returns no stats for it either way).
-/

/-- Utterance (interfaces.ts): speaker label or null, bounds in ms, text. -/
structure Utterance where
  speaker : Option String
  startMs : ℚ
  endMs : ℚ
  text : String

/-- Word counting of calculateWPM line 299: trim, split on whitespace
runs, drop empty tokens; equivalently the number of maximal
non-whitespace runs of the text. -/
def countWordsAux : Bool → List Char → Nat
  | _, [] => 0
  | inWord, c :: rest =>
    if c.isWhitespace then countWordsAux false rest
    else (if inWord then 0 else 1) + countWordsAux true rest

def countWords (text : String) : Nat :=
  countWordsAux false text.data

/-- JS Math.round: round half towards positive infinity. -/
def jsRound (q : ℚ) : ℤ := ⌊q + 1 / 2⌋

/-- Number.toFixed(2) followed by parseFloat, modelled as rounding to the
nearest hundredth over exact rationals. -/
def roundTo2 (q : ℚ) : ℚ := (jsRound (q * 100) : ℚ) / 100

/-- Per-speaker accumulator of calculateWPM: word count and summed
utterance duration in ms. -/
structure SpeakerAcc where
  label : String
  wordCount : Nat
  durationMs : ℚ

/-- One step of the utterance loop (calculateWPM lines 287 to 305):
utterances with no speaker are skipped; a known speaker accumulates word
count and duration, keyed by label in first-appearance order. -/
def addUtterance (acc : List SpeakerAcc) (u : Utterance) : List SpeakerAcc :=
  match u.speaker with
  | none => acc
  | some sp =>
    let words := countWords u.text
    let dur := u.endMs - u.startMs
    if acc.any fun a => a.label == sp then
      acc.map fun a =>
        if a.label == sp then
          ⟨a.label, a.wordCount + words, a.durationMs + dur⟩
        else a
    else
      acc ++ [⟨sp, words, dur⟩]

def speakerStats (utterances : List Utterance) : List SpeakerAcc :=
  utterances.foldl addUtterance []

/-- The result-building branch of calculateWPM (lines 308 to 326): with
positive measured duration and a positive word count, the WPM is
Math.round of words divided by the duration in seconds times 60 and the
duration is reported to two decimals; otherwise every field is zero. -/
def mkSpeakerWPM (a : SpeakerAcc) : SpeakerWPM :=
  if 0 < a.durationMs ∧ 0 < a.wordCount then
    ⟨"Speaker_" ++ a.label,
     (jsRound (((a.wordCount : ℚ) / (a.durationMs / 1000)) * 60) : ℚ),
     a.wordCount,
     roundTo2 (a.durationMs / 1000)⟩
  else
    ⟨"Speaker_" ++ a.label, 0, 0, 0⟩

/-- calculateWPM (part_016 lines 279 to 330). -/
def calculateWPM (utterances : List Utterance) : List SpeakerWPM :=
  (speakerStats utterances).map mkSpeakerWPM

/-- Oracles for the three blocking collaborator calls of one analysis run:
the AssemblyAI upload, the transcription submission, and the poll loop
(whose error also covers the attempt-ceiling timeout). -/
structure AnalyzeExternals where
  uploadRes : Except String Unit
  submitRes : Except String Unit
  pollRes : Except String (List Utterance)

/-- The one terminal ledger write of an analysis handler run. -/
inductive AnalyzeFinalWrite
  | readyForInput (speakers : List SpeakerWPM) (segments : List SegmentT)
  | failed (msg : String)

/-- The first exception raised by the collaborator calls, in program
order, if any. -/
def analyzeFirstError (fx : AnalyzeExternals) : Option String :=
  match fx.uploadRes with
  | .error e => some e
  | .ok _ =>
    match fx.submitRes with
    | .error e => some e
    | .ok _ =>
      match fx.pollRes with
      | .error e => some e
      | .ok _ => none

/-- processAnalyzeJob (part_016 lines 337 to 391): the intermediate status
writes made before each collaborator call, then either the
READY_FOR_INPUT write persisting the computed SpeakerWPM list and the
Segment list mapped from the utterances, or the FAILED write carrying the
message of whichever step threw; the handler always returns. -/
def processAnalyzeJob (fx : AnalyzeExternals) : List JobStatus × AnalyzeFinalWrite :=
  match fx.uploadRes with
  | .error e => ([.PROCESSING_UPLOAD_CLOUD], .failed e)
  | .ok _ =>
    match fx.submitRes with
    | .error e => ([.PROCESSING_UPLOAD_CLOUD, .PROCESSING_CLOUD_ANALYSIS], .failed e)
    | .ok _ =>
      match fx.pollRes with
      | .error e => ([.PROCESSING_UPLOAD_CLOUD, .PROCESSING_CLOUD_ANALYSIS], .failed e)
      | .ok utts =>
        ([.PROCESSING_UPLOAD_CLOUD, .PROCESSING_CLOUD_ANALYSIS,
          .PROCESSING_WPM_CALCULATION],
         .readyForInput (calculateWPM utts)
           (utts.map fun u => ⟨u.speaker, u.startMs, u.endMs⟩))

/-- All external commands succeed. -/
def allOk : Externals := ⟨true, true, fun _ => true, fun _ => true, true⟩

/-- C6: the job-specific temporary working directory is removed exactly
when it was created, on both successful and failing runs (the finally
block of the full path), and when created the removal is the final
operation of the run; the no-op copy path and the pre-mkdir failure paths
never create the directory at all. -/
theorem adjust_temp_dir_always_cleaned (fx : Externals) (targets : List TargetWPM)
    (analysis : Option AnalysisData) :
    (processAudioAdjustment fx targets analysis).tempDirRemoved
      = (processAudioAdjustment fx targets analysis).tempDirCreated ∧
    ((processAudioAdjustment fx targets analysis).tempDirCreated = true →
      ∃ l, (processAudioAdjustment fx targets analysis).steps
          = l ++ [WStep.removeTempDir]) := by
  rcases analysis with _ | ad
  · exact ⟨rfl, fun h => by cases h⟩
  · by_cases hn : needsProcessing (ad.speakers.map fun s => (s.id, s.avg_wpm)) targets
    · by_cases hm : fx.mkdirOk
      · rcases hr : (processSegments fx (ad.speakers.map fun s => (s.id, s.avg_wpm))
            (targets.map fun t => (t.id, t.target_wpm)) 0 ad.segments).2 with e | fs
        · have hq : processAudioAdjustment fx targets (some ad)
              = ⟨[WStep.statusWrite .PROCESSING_ADJUSTMENT] ++ [.mkdirTemp]
                  ++ (processSegments fx (ad.speakers.map fun s => (s.id, s.avg_wpm))
                      (targets.map fun t => (t.id, t.target_wpm)) 0 ad.segments).1
                  ++ [.removeTempDir], .error e, true, true⟩ := by
            simp [processAudioAdjustment, hn, hm, hr]
          rw [hq]
          exact ⟨rfl, fun _ => ⟨_, rfl⟩⟩
        · by_cases hk : fx.concatOk
          all_goals {
            have hq : (processAudioAdjustment fx targets (some ad)).steps
                = ([WStep.statusWrite .PROCESSING_ADJUSTMENT] ++ [.mkdirTemp]
                    ++ (processSegments fx (ad.speakers.map fun s => (s.id, s.avg_wpm))
                        (targets.map fun t => (t.id, t.target_wpm)) 0 ad.segments).1
                    ++ [.statusWrite .PROCESSING_RECONSTRUCTION, .concat])
                  ++ [.removeTempDir] := by
              simp [processAudioAdjustment, hn, hm, hr, hk]
            have hq2 : (processAudioAdjustment fx targets (some ad)).tempDirRemoved = true ∧
                (processAudioAdjustment fx targets (some ad)).tempDirCreated = true := by
              constructor <;> simp [processAudioAdjustment, hn, hm, hr, hk]
            rw [hq2.1, hq2.2]
            exact ⟨rfl, fun _ => ⟨_, hq⟩⟩
          }
      · have hq : processAudioAdjustment fx targets (some ad)
            = ⟨[WStep.statusWrite .PROCESSING_ADJUSTMENT],
               .error "failed to create temp directory", false, false⟩ := by
          simp [processAudioAdjustment, hn, hm]
        rw [hq]
        exact ⟨rfl, fun h => by cases h⟩
    · by_cases hc : fx.copyOk
      all_goals {
        have hq : (processAudioAdjustment fx targets (some ad)).tempDirRemoved = false ∧
            (processAudioAdjustment fx targets (some ad)).tempDirCreated = false := by
          constructor <;> simp [processAudioAdjustment, hn, hc]
        rw [hq.1, hq.2]
        exact ⟨rfl, fun h => by cases h⟩
      }

/-- Witness for C6: a run that takes the full path (one target with no
matching original) creates the temp directory and ends by removing it. -/
theorem adjust_temp_dir_always_cleaned_witness :
    ∃ l, (processAudioAdjustment allOk [⟨"X", 100⟩] (some ⟨[], []⟩)).steps
        = l ++ [WStep.removeTempDir] :=
  (adjust_temp_dir_always_cleaned allOk [⟨"X", 100⟩] (some ⟨[], []⟩)).2 rfl

/-- The optimization check declines processing exactly when every supplied
target has a stored original WPM within 1.0 of the target. -/
lemma needsProcessing_eq_false (originals : List (String × ℚ)) (targets : List TargetWPM) :
    needsProcessing originals targets = false ↔
      ∀ t ∈ targets, ∃ ow, mapGet originals t.id = some ow ∧
        |t.target_wpm - ow| ≤ 1 := by
  constructor
  · intro h t ht
    rcases hm : mapGet originals t.id with _ | ow
    · exfalso
      have : needsProcessing originals targets = true := by
        refine List.any_eq_true.mpr ⟨t, ht, ?_⟩
        simp [hm]
      rw [h] at this
      exact Bool.false_ne_true this
    · refine ⟨ow, rfl, ?_⟩
      by_contra hgt
      have : needsProcessing originals targets = true := by
        refine List.any_eq_true.mpr ⟨t, ht, ?_⟩
        simp only [hm]
        exact decide_eq_true (not_le.mp hgt)
      rw [h] at this
      exact Bool.false_ne_true this
  · intro h
    rw [← Bool.not_eq_true]
    intro hany
    obtain ⟨t, ht, hp⟩ := List.any_eq_true.mp hany
    obtain ⟨ow, how, hle⟩ := h t ht
    rw [how] at hp
    exact absurd (of_decide_eq_true hp) (not_lt.mpr hle)

/-- C3: with analysis data present, if the target list is empty or every
supplied target is within 1.0 WPM of the stored average of its speaker (and a
stored average exists for it), and the filesystem copy succeeds, the run
returns a verbatim byte copy of the source file, attempts no temp
directory creation, extraction, stretch or concatenation, and the worker
makes the COMPLETE terminal write persisting that output path. -/
theorem no_op_targets_copy_source_complete (fx : Externals) (targets : List TargetWPM)
    (speakers : List SpeakerWPM) (segments : List SegmentT)
    (hcopy : fx.copyOk = true)
    (htol : targets = [] ∨ ∀ t ∈ targets, ∃ ow,
        mapGet (speakers.map fun s => (s.id, s.avg_wpm)) t.id = some ow ∧
        |t.target_wpm - ow| ≤ 1) :
    (processAudioAdjustment fx targets (some ⟨speakers, segments⟩)).result
        = .ok .sourceCopy ∧
    ((processAudioAdjustment fx targets (some ⟨speakers, segments⟩)).steps.all fun st =>
        match st with
        | .extract _ => false
        | .stretch _ _ => false
        | .concat => false
        | .mkdirTemp => false
        | _ => true) = true ∧
    (processAdjustJob fx targets (some ⟨speakers, segments⟩)).2
        = .complete .sourceCopy := by
  have hnp : needsProcessing (speakers.map fun s => (s.id, s.avg_wpm)) targets = false := by
    rcases htol with h | h
    · subst h; rfl
    · exact (needsProcessing_eq_false _ _).mpr h
  have hrun : processAudioAdjustment fx targets (some ⟨speakers, segments⟩)
      = ⟨[.statusWrite .PROCESSING_ADJUSTMENT, .copySource], .ok .sourceCopy,
         false, false⟩ := by
    simp [processAudioAdjustment, hnp, hcopy]
  exact ⟨by rw [hrun], by rw [hrun]; rfl, by simp [processAdjustJob, hrun]⟩

/-- Witness for C3: an empty target list with all commands succeeding ends
COMPLETE with the source copied verbatim. -/
theorem no_op_targets_copy_source_complete_witness :
    allOk.copyOk = true ∧
    (processAdjustJob allOk [] (some ⟨[], []⟩)).2 = .complete .sourceCopy :=
  ⟨rfl, (no_op_targets_copy_source_complete allOk [] [] [] rfl (Or.inl rfl)).2.2⟩

/-- Per-segment result files as the spec describes them: in chronological
index order, skipping non-positive durations, stretched with the computed
factor exactly when it deviates from 1 by more than 0.01, else the
extracted audio reused unmodified. -/
def expectedOutputs (originals targetEntries : List (String × ℚ)) :
    Nat → List SegmentT → List AudioFile
  | _, [] => []
  | i, seg :: rest =>
    if seg.endMs - seg.startMs ≤ 0 then
      expectedOutputs originals targetEntries (i + 1) rest
    else
      (if |stretchFactor originals targetEntries seg - 1| > 1 / 100 then
        AudioFile.stretched i (stretchFactor originals targetEntries seg)
      else AudioFile.extracted i) :: expectedOutputs originals targetEntries (i + 1) rest

/-- On a successful run, the segment loop returns exactly the
spec-described per-segment files. -/
lemma processSegments_ok_eq (fx : Externals) (originals targetEntries : List (String × ℚ)) :
    ∀ (segs : List SegmentT) (i : Nat) (files : List AudioFile),
      (processSegments fx originals targetEntries i segs).2 = .ok files →
      files = expectedOutputs originals targetEntries i segs := by
  intro segs
  induction segs with
  | nil =>
    intro i files h
    simp only [processSegments] at h
    injection h with h
    rw [← h]
    rfl
  | cons seg rest ih =>
    intro i files h
    simp only [processSegments] at h
    simp only [expectedOutputs]
    by_cases hd : seg.endMs - seg.startMs ≤ 0
    · rw [if_pos hd] at h
      rw [if_pos hd]
      exact ih (i + 1) files h
    · rw [if_neg hd] at h
      rw [if_neg hd]
      by_cases he : fx.extractOk i
      · rw [if_pos he] at h
        by_cases hf : |stretchFactor originals targetEntries seg - 1| > 1 / 100
        · rw [if_pos hf] at h
          rw [if_pos hf]
          by_cases hs : fx.stretchOk i
          · rw [if_pos hs] at h
            rcases hx : (processSegments fx originals targetEntries (i + 1) rest).2
                with e | fs
            · rw [hx] at h
              exact absurd h (by simp [Except.map])
            · rw [hx] at h
              simp only [Except.map] at h
              injection h with h
              rw [← h, ih (i + 1) fs hx]
          · rw [if_neg hs] at h
            exact absurd h (by simp)
        · rw [if_neg hf] at h
          rw [if_neg hf]
          rcases hx : (processSegments fx originals targetEntries (i + 1) rest).2
              with e | fs
          · rw [hx] at h
            exact absurd h (by simp [Except.map])
          · rw [hx] at h
            simp only [Except.map] at h
            injection h with h
            rw [← h, ih (i + 1) fs hx]
      · rw [if_neg he] at h
        exact absurd h (by simp)

/-- C4: the stretch factor of a segment is target WPM over average WPM for
its speaker, exactly and unclamped, whenever the segment has a speaker,
that speaker has a target and a stored average, and both rates are
positive; it is 1.0 when the segment has no speaker, the speaker has no
target, the speaker has no stored average, or either rate is non-positive;
and on a successful loop the produced file for each processed segment is
the stretched audio precisely when the factor deviates from 1 by more than
0.01 and the unmodified extracted audio otherwise. -/
theorem stretch_factor_unclamped_invocation_iff (fx : Externals)
    (originals targetEntries : List (String × ℚ)) (seg : SegmentT) :
    (seg.speaker = none → stretchFactor originals targetEntries seg = 1) ∧
    (∀ sp, seg.speaker = some sp →
      (mapHas targetEntries ("Speaker_" ++ sp) = false →
        stretchFactor originals targetEntries seg = 1) ∧
      (∀ tw, mapHas targetEntries ("Speaker_" ++ sp) = true →
        mapGet targetEntries ("Speaker_" ++ sp) = some tw →
        (mapGet originals ("Speaker_" ++ sp) = none →
          stretchFactor originals targetEntries seg = 1) ∧
        (∀ ow, mapGet originals ("Speaker_" ++ sp) = some ow →
          (0 < ow ∧ 0 < tw →
            stretchFactor originals targetEntries seg = tw / ow) ∧
          (¬ (0 < ow ∧ 0 < tw) →
            stretchFactor originals targetEntries seg = 1)))) ∧
    (∀ (segs : List SegmentT) (i : Nat) (files : List AudioFile),
      (processSegments fx originals targetEntries i segs).2 = .ok files →
      files = expectedOutputs originals targetEntries i segs) := by
  refine ⟨?_, ?_, processSegments_ok_eq fx originals targetEntries⟩
  · intro h
    simp [stretchFactor, h]
  · intro sp hsp
    refine ⟨fun hh => by simp [stretchFactor, hsp, hh], ?_⟩
    intro tw hh hgt
    refine ⟨fun ho => by simp [stretchFactor, hsp, hh, hgt, ho], ?_⟩
    intro ow ho
    exact ⟨fun hpos => by simp [stretchFactor, hsp, hh, hgt, ho, hpos],
           fun hneg => by simp [stretchFactor, hsp, hh, hgt, ho, hneg]⟩

/-- Witness for C4: a segment with a null speaker label gets factor 1. -/
theorem stretch_factor_unclamped_invocation_iff_witness :
    stretchFactor [] [] ⟨none, 0, 1000⟩ = 1 :=
  (stretch_factor_unclamped_invocation_iff allOk [] [] ⟨none, 0, 1000⟩).1 rfl

/-- The segment index a per-segment result file came from. -/
def fileIndex : AudioFile → Nat
  | .extracted i => i
  | .stretched i _ => i
  | _ => 0

/-- Indices of the positive-duration segments, in source list order. -/
def chronIndices : Nat → List SegmentT → List Nat
  | _, [] => []
  | i, seg :: rest =>
    if seg.endMs - seg.startMs ≤ 0 then chronIndices (i + 1) rest
    else i :: chronIndices (i + 1) rest

lemma expectedOutputs_map_fileIndex (originals targetEntries : List (String × ℚ)) :
    ∀ (segs : List SegmentT) (i : Nat),
      (expectedOutputs originals targetEntries i segs).map fileIndex
        = chronIndices i segs := by
  intro segs
  induction segs with
  | nil => intro i; rfl
  | cons seg rest ih =>
    intro i
    simp only [expectedOutputs, chronIndices]
    by_cases hd : seg.endMs - seg.startMs ≤ 0
    · rw [if_pos hd, if_pos hd]
      exact ih (i + 1)
    · rw [if_neg hd, if_neg hd]
      by_cases hf : |stretchFactor originals targetEntries seg - 1| > 1 / 100
      · rw [if_pos hf]
        simp [fileIndex, ih (i + 1)]
      · rw [if_neg hf]
        simp [fileIndex, ih (i + 1)]

lemma chronIndices_sorted :
    ∀ (segs : List SegmentT) (i : Nat),
      (chronIndices i segs).Chain' (· < ·) ∧ ∀ j ∈ chronIndices i segs, i ≤ j := by
  intro segs
  induction segs with
  | nil => intro i; exact ⟨List.chain'_nil, by simp [chronIndices]⟩
  | cons seg rest ih =>
    intro i
    simp only [chronIndices]
    by_cases hd : seg.endMs - seg.startMs ≤ 0
    · rw [if_pos hd]
      exact ⟨(ih (i + 1)).1,
             fun j hj => le_trans (Nat.le_succ i) ((ih (i + 1)).2 j hj)⟩
    · rw [if_neg hd]
      refine ⟨List.chain'_cons'.mpr ⟨?_, (ih (i + 1)).1⟩, ?_⟩
      · intro j hj
        have := (ih (i + 1)).2 j (List.mem_of_mem_head? hj)
        omega
      · intro j hj
        rcases List.mem_cons.mp hj with h | h
        · omega
        · exact le_trans (Nat.le_succ i) ((ih (i + 1)).2 j h)

/-- C5: when the full reconstruction path succeeds, the final output is
the concatenation of exactly the spec-described per-segment files; their
segment indices are the indices of the positive-duration segments of the
source list, in source order, and strictly increasing, so the output
order matches source chronological order. -/
theorem output_concatenated_in_chronological_order (fx : Externals)
    (targets : List TargetWPM) (speakers : List SpeakerWPM) (segments : List SegmentT)
    (files : List AudioFile)
    (h : (processAudioAdjustment fx targets (some ⟨speakers, segments⟩)).result
        = .ok (.concatenated files)) :
    files = expectedOutputs (speakers.map fun s => (s.id, s.avg_wpm))
        (targets.map fun t => (t.id, t.target_wpm)) 0 segments ∧
    files.map fileIndex = chronIndices 0 segments ∧
    (files.map fileIndex).Chain' (· < ·) := by
  by_cases hn : needsProcessing (speakers.map fun s => (s.id, s.avg_wpm)) targets
  · by_cases hm : fx.mkdirOk
    · rcases hr : (processSegments fx (speakers.map fun s => (s.id, s.avg_wpm))
          (targets.map fun t => (t.id, t.target_wpm)) 0 segments).2 with e | fs
      · exfalso
        simp [processAudioAdjustment, hn, hm, hr] at h
      · by_cases hk : fx.concatOk
        · simp only [processAudioAdjustment, hn, hm, hr, hk] at h
          simp [hn, hm, hr, hk] at h
          obtain rfl : fs = files := h
          have hfe := processSegments_ok_eq fx _ _ segments 0 fs hr
          refine ⟨hfe, ?_, ?_⟩
          · rw [hfe]
            exact expectedOutputs_map_fileIndex _ _ segments 0
          · rw [hfe, expectedOutputs_map_fileIndex]
            exact (chronIndices_sorted segments 0).1
        · exfalso
          simp [processAudioAdjustment, hn, hm, hr, hk] at h
    · exfalso
      simp [processAudioAdjustment, hn, hm] at h
  · exfalso
    by_cases hc : fx.copyOk <;> simp [processAudioAdjustment, hn, hc] at h

/-- Witness for C5 at a concrete full run: one speaker at 1 WPM average
with target 3, one positive segment; the run succeeds and produces the
concatenation of the single stretched segment file, in source order. -/
theorem output_concatenated_in_chronological_order_witness :
    [AudioFile.stretched 0 3].map fileIndex
      = chronIndices 0 [⟨some "A", 0, 1000⟩] := by
  have hs : ("Speaker_" ++ "A" : String) = "Speaker_A" := by decide
  have h : (processAudioAdjustment allOk [⟨"Speaker_A", 3⟩]
      (some ⟨[⟨"Speaker_A", 1, 1, 1⟩], [⟨some "A", 0, 1000⟩]⟩)).result
      = .ok (.concatenated [.stretched 0 3]) := by
    norm_num [processAudioAdjustment, needsProcessing, processSegments, stretchFactor,
      mapGet, mapHas, allOk, hs, List.find?, Except.map, decide_eq_true_eq]
  exact (output_concatenated_in_chronological_order allOk [⟨"Speaker_A", 3⟩]
      [⟨"Speaker_A", 1, 1, 1⟩] [⟨some "A", 0, 1000⟩] [.stretched 0 3] h).2.1

/-- C8 is false on the code as stated: a single speaker with one word over
200 seconds has totalWords = 1 and totalDurationSeconds = 200 both
positive, yet averageWPM = round(0.3) = 0; the claimed equivalence fails
at this input. -/
theorem wpm_positivity_iff_counterexample :
    calculateWPM [⟨some "A", 0, 200000, "hi"⟩] = [⟨"Speaker_A", 0, 1, 200⟩] ∧
    ¬ (∀ s ∈ calculateWPM [⟨some "A", 0, 200000, "hi"⟩],
        (0 < s.avg_wpm ↔ 0 < s.total_words ∧ 0 < s.total_duration_s)) := by
  have hs : ("Speaker_" ++ "A" : String) = "Speaker_A" := by decide
  have hcw : countWords "hi" = 1 := by decide
  have hcalc : calculateWPM [⟨some "A", 0, 200000, "hi"⟩]
      = [⟨"Speaker_A", 0, 1, 200⟩] := by
    norm_num [calculateWPM, speakerStats, addUtterance, mkSpeakerWPM, hcw, hs,
      jsRound, roundTo2, Int.floor_eq_iff]
  refine ⟨hcalc, fun hall => ?_⟩
  have hmem : (⟨"Speaker_A", 0, 1, 200⟩ : SpeakerWPM)
      ∈ calculateWPM [⟨some "A", 0, 200000, "hi"⟩] := by
    rw [hcalc]; exact List.mem_singleton.mpr rfl
  have hiff := hall ⟨"Speaker_A", 0, 1, 200⟩ hmem
  have : (0:ℚ) < 0 := hiff.mpr (by constructor <;> norm_num)
  exact absurd this (by norm_num)

/-- C8 amended: averageWPM is positive only if totalWords is positive; a
zero word count or non-positive measured duration zeroes every field; and
for a positive word count the stat comes from some positive measured
duration d with averageWPM = round(words / (d/1000) × 60) and
totalDurationSeconds = d/1000 rounded to two decimals - so averageWPM can
round to 0 even when totalWords and totalDurationSeconds are positive, and
the iff of the original claim fails in that direction. -/
theorem wpm_zero_propagation (utterances : List Utterance) (s : SpeakerWPM)
    (hmem : s ∈ calculateWPM utterances) :
    (0 < s.avg_wpm → 0 < s.total_words) ∧
    (s.total_words = 0 → s.avg_wpm = 0 ∧ s.total_duration_s = 0) ∧
    (0 < s.total_words → ∃ d : ℚ, 0 < d ∧
      s.avg_wpm = (jsRound (((s.total_words : ℚ) / (d / 1000)) * 60) : ℚ) ∧
      s.total_duration_s = roundTo2 (d / 1000)) := by
  simp only [calculateWPM] at hmem
  obtain ⟨a, _ha, rfl⟩ := List.mem_map.mp hmem
  by_cases hpos : 0 < a.durationMs ∧ 0 < a.wordCount
  · have hmk : mkSpeakerWPM a = ⟨"Speaker_" ++ a.label,
        (jsRound (((a.wordCount : ℚ) / (a.durationMs / 1000)) * 60) : ℚ),
        a.wordCount, roundTo2 (a.durationMs / 1000)⟩ := by
      simp [mkSpeakerWPM, hpos]
    rw [hmk]
    refine ⟨fun _ => hpos.2,
            fun hw => by
              have hw2 : a.wordCount = 0 := hw
              have := hpos.2
              omega, ?_⟩
    exact fun _ => ⟨a.durationMs, hpos.1, rfl, rfl⟩
  · have hmk : mkSpeakerWPM a = ⟨"Speaker_" ++ a.label, 0, 0, 0⟩ := by
      simp only [mkSpeakerWPM, if_neg hpos]
    rw [hmk]
    exact ⟨fun h => absurd h (lt_irrefl 0), fun _ => ⟨rfl, rfl⟩,
           fun h => absurd h (lt_irrefl 0)⟩

/-- Witness for the amended C8: two words over one second give an actual
positive stat (averageWPM 120) whose positivity propagates to the word
count. -/
theorem wpm_zero_propagation_witness :
    (⟨"Speaker_A", 120, 2, 1⟩ : SpeakerWPM)
        ∈ calculateWPM [⟨some "A", 0, 1000, "a b"⟩] ∧
    0 < (⟨"Speaker_A", (120:ℚ), 2, 1⟩ : SpeakerWPM).total_words := by
  have hs : ("Speaker_" ++ "A" : String) = "Speaker_A" := by decide
  have hcw : countWords "a b" = 2 := by decide
  have hcalc : calculateWPM [⟨some "A", 0, 1000, "a b"⟩]
      = [⟨"Speaker_A", 120, 2, 1⟩] := by
    norm_num [calculateWPM, speakerStats, addUtterance, mkSpeakerWPM, hcw, hs,
      jsRound, roundTo2, Int.floor_eq_iff]
  have hmem : (⟨"Speaker_A", (120:ℚ), 2, 1⟩ : SpeakerWPM)
      ∈ calculateWPM [⟨some "A", 0, 1000, "a b"⟩] := by
    rw [hcalc]; exact List.mem_singleton.mpr rfl
  refine ⟨hmem, ?_⟩
  exact (wpm_zero_propagation [⟨some "A", 0, 1000, "a b"⟩] _ hmem).1
    (by show (0:ℚ) < 120; norm_num)

/-- C7: both worker handlers convert every exception raised at any step
into a single FAILED terminal write carrying the message, and otherwise
make the successful terminal write; the handlers are total, so nothing
escapes. For the analysis worker the failure message is exactly the first
collaborator error in program order; for the adjustment worker the
terminal write is FAILED with the error of processAudioAdjustment, or
COMPLETE with its output, one of which always holds. -/
theorem worker_exceptions_become_failed (afx : AnalyzeExternals) (fx : Externals)
    (targets : List TargetWPM) (analysis : Option AnalysisData) :
    (∀ e : String,
      (processAnalyzeJob afx).2 = .failed e ↔ analyzeFirstError afx = some e) ∧
    (∀ utts : List Utterance, afx.pollRes = .ok utts → analyzeFirstError afx = none →
      (processAnalyzeJob afx).2
        = .readyForInput (calculateWPM utts)
            (utts.map fun u => ⟨u.speaker, u.startMs, u.endMs⟩)) ∧
    (∀ e : String, (processAdjustJob fx targets analysis).2 = .failed e ↔
        (processAudioAdjustment fx targets analysis).result = .error e) ∧
    (∀ out : AudioFile, (processAdjustJob fx targets analysis).2 = .complete out ↔
        (processAudioAdjustment fx targets analysis).result = .ok out) := by
  obtain ⟨u, s, p⟩ := afx
  refine ⟨?_, ?_, ?_, ?_⟩
  · rcases u with e1 | u <;> rcases s with e2 | s <;> rcases p with e3 | utts <;>
      intro e0 <;> simp [processAnalyzeJob, analyzeFirstError]
  · rcases u with e1 | u <;> rcases s with e2 | s <;> rcases p with e3 | utts <;>
      intro utts0 h1 h2 <;>
      first
        | (injection h1 with h1; subst h1; rfl)
        | (exact absurd h2 (by simp [analyzeFirstError]))
        | (exact absurd h1 (by simp))
  · intro e
    rcases hres : (processAudioAdjustment fx targets analysis).result with e1 | out1 <;>
      simp [processAdjustJob, hres]
  · intro out
    rcases hres : (processAudioAdjustment fx targets analysis).result with e1 | out1 <;>
      simp [processAdjustJob, hres]

/-- Witness for C7: an analysis run whose upload throws makes exactly the
FAILED terminal write with that message. -/
theorem worker_exceptions_become_failed_witness :
    (processAnalyzeJob ⟨.error "boom", .ok (), .ok []⟩).2 = .failed "boom" :=
  ((worker_exceptions_become_failed ⟨.error "boom", .ok (), .ok []⟩ allOk [] none).1
    "boom").mpr rfl

end PodPace
